import Mathlib

/-!
Verification development for the Web Agent Memory Protocol repository
(extension SDK, registry manager and permission manager).

The TypeScript sources are shallowly embedded:
* JavaScript strings are lists of UTF-16 code units (`List Nat`); only the
  ASCII lowercasing and whitespace trimming used by the merge engine are
  modelled.
* JavaScript numbers carrying relevance scores are rationals; epoch-millisecond
  timestamps are integers.
* JavaScript objects used as keyed collections (permission storage, web agent
  context storage, the provider `Map`) are association lists in insertion
  order, matching the enumeration order of string-keyed objects and of `Map`.
* Falsiness of optional numeric / string fields (`undefined`, `0`, `""`) is
  modelled explicitly where the source branches on truthiness.
* A thrown exception is an `Except.error`; collaborator functions that the SDK
  awaits (the context source, the custom web-agent-context handler) are
  embedded as `Except` values.
* Wall-clock reads (`Date.now()`) are explicit `now` parameters; payload-only
  fields that no branch inspects (`metadata` maps, `appInfo` records,
  `generatedAt` stamps) are omitted from the embedded records.
-/


/-! ### JavaScript primitives -/

/-- Model of `a || b` for an optional string: `undefined` and `""` are falsy. -/
def jsOrStr (a : Option (List Nat)) (d : List Nat) : List Nat :=
  match a with
  | some s => if s = [] then d else s
  | none => d

/-- Model of `a || b` for an optional string held as a Lean `String`. -/
def jsOrS (a : Option String) (d : String) : String :=
  match a with
  | some s => if s = "" then d else s
  | none => d

/-- Truthiness of an optional numeric field: `undefined` and `0` are falsy. -/
def jsTruthyInt (a : Option Int) : Bool :=
  match a with
  | some t => t != 0
  | none => false

/-- Truthiness of an optional count field: `undefined` and `0` are falsy. -/
def jsTruthyNat (a : Option Nat) : Bool :=
  match a with
  | some t => t != 0
  | none => false

/-- Model of `a || b` for an optional count: `0` falls back to the default. -/
def jsOrNat (a : Option Nat) (d : Nat) : Nat :=
  match a with
  | some t => if t = 0 then d else t
  | none => d

/-- Model of `a || b` for an optional integer: `0` falls back to the default. -/
def jsOrInt (a : Option Int) (d : Int) : Int :=
  match a with
  | some t => if t = 0 then d else t
  | none => d

/-- JavaScript strings as sequences of UTF-16 code units. -/
abbrev JStr := List Nat

/-- Whitespace test used by `String.prototype.trim`, restricted to the ASCII
whitespace code units (space, tab, line feed, carriage return). -/
def wsCode (n : Nat) : Bool :=
  decide (n = 32 ∨ n = 9 ∨ n = 10 ∨ n = 13)

/-- ASCII case mapping of `String.prototype.toLowerCase`. -/
def lowerCode (n : Nat) : Nat :=
  if 65 ≤ n ∧ n ≤ 90 then n + 32 else n

/-- Model of `s.toLowerCase()`. -/
def jsToLower (s : JStr) : JStr := s.map lowerCode

/-- Model of `s.trim()`: drop whitespace from both ends. -/
def jsTrim (s : JStr) : JStr :=
  ((s.dropWhile wsCode).reverse.dropWhile wsCode).reverse

/-- Insert-or-update into an object / `Map` viewed as an association list:
an existing key keeps its position and gets the new value, a fresh key is
appended, matching JavaScript property insertion order. -/
def objSet {α : Type} (l : List (String × α)) (k : String) (v : α) :
    List (String × α) :=
  match l with
  | [] => [(k, v)]
  | (k2, v2) :: rest =>
      if k2 = k then (k, v) :: rest else (k2, v2) :: objSet rest k v

/-! ### Data model -/

/-- A `Memory` record (`text`, `relevance`, `timestamp`, `source`); the opaque
`metadata` payload is never inspected by the embedded code and is omitted. -/
structure Memory where
  text : JStr
  relevance : ℚ
  timestamp : Int
  source : JStr
deriving DecidableEq, Repr

/-- A `MemoryContext`: the ordered list of memories. -/
structure MemoryContext where
  memories : List Memory
deriving DecidableEq, Repr

/-! ### Merge engine, embedded from `mergeContexts`
(`registry-manager` version, which truncates to `options?.topK ?? 50`;
the copy in `extension-sdk/src/index.ts` is the same function applied
with no options, hence a fixed 50). -/

/-- Deduplication key computed by the source: `memory.text.toLowerCase().trim()`. -/
def memKeyCode (m : Memory) : JStr := jsTrim (jsToLower m.text)

/-- Deduplication key as the specification words it: lowercase of the trimmed text. -/
def memKeySpec (m : Memory) : JStr := jsToLower (jsTrim m.text)

/-- One step of the `memoryMap` loop: `memoryMap.set(key, memory)` runs only
when there is no entry for `key` or the incoming `relevance` is strictly
higher; `Map.set` keeps the position of an existing key. -/
def upsertMem (k : JStr) (m : Memory) :
    List (JStr × Memory) → List (JStr × Memory)
  | [] => [(k, m)]
  | (k2, m2) :: rest =>
      if k2 = k then
        (if m.relevance > m2.relevance then (k2, m) else (k2, m2)) :: rest
      else (k2, m2) :: upsertMem k m rest

/-- The `allMemories.forEach` loop over the insertion-ordered `Map`,
followed by `Array.from(memoryMap.values())`. -/
def dedupFold (l : List Memory) : List Memory :=
  (l.foldl (fun acc m => upsertMem (memKeyCode m) m acc) []).map Prod.snd

/-- Comparator order of `.sort((a, b) => b.relevance - a.relevance)`:
`a` may stay before `b` iff its relevance is at least that of `b`. -/
def relGe (a b : Memory) : Prop := b.relevance ≤ a.relevance

instance : DecidableRel relGe := fun a b =>
  inferInstanceAs (Decidable (b.relevance ≤ a.relevance))

instance : IsTotal Memory relGe := ⟨fun a b => le_total b.relevance a.relevance⟩

instance : IsTrans Memory relGe :=
  ⟨fun _ _ _ h1 h2 => le_trans h2 h1⟩

/-- Stable relevance-descending sort; JavaScript `Array.prototype.sort` is
stable, and insertion sort is the stable sort for the comparator order. -/
def sortByRelevanceDesc (l : List Memory) : List Memory :=
  l.insertionSort relGe

/-- `mergeContexts(contexts, options)` from the registry manager. -/
def mergeContexts (contexts : List MemoryContext) (topK : Option Nat) :
    MemoryContext :=
  match contexts with
  | [] => ⟨[]⟩
  | [c] => c
  | c1 :: c2 :: rest =>
      let allMemories := ((c1 :: c2 :: rest).map MemoryContext.memories).flatten
      ⟨(sortByRelevanceDesc (dedupFold allMemories)).take (topK.getD 50)⟩

/-! ### Merge engine as the specification words it -/

/-- Pick the higher-relevance memory; on ties the first encountered wins. -/
def updWinner (w x : Memory) : Memory :=
  if x.relevance > w.relevance then x else w

/-- Winner for one key: fold the later same-key memories into the first. -/
def specWinner (m : Memory) (l : List Memory) : Memory :=
  l.foldl updWinner m

/-- Deduplicate by the key lowercase(trim(text)): for each key, in order of
first occurrence, keep the memory with the highest relevance, first
encountered winning ties. -/
def specDedup : List Memory → List Memory
  | [] => []
  | m :: rest =>
      specWinner m (rest.filter (fun x => memKeySpec x = memKeySpec m)) ::
        specDedup (rest.filter (fun x => ¬ memKeySpec x = memKeySpec m))
termination_by l => l.length
decreasing_by
  simp only [List.length_cons]
  exact Nat.lt_succ_of_le (List.length_filter_le _ _)

/-- The merge as claimed: empty context for zero inputs, the single input for
one input, otherwise flatten, deduplicate by lowercase(trim(text)), sort by
relevance descending and truncate to `topK` (default 50). -/
def mergeSpec (contexts : List MemoryContext) (topK : Option Nat) :
    MemoryContext :=
  match contexts with
  | [] => ⟨[]⟩
  | [c] => c
  | c1 :: c2 :: rest =>
      let allMemories := ((c1 :: c2 :: rest).map MemoryContext.memories).flatten
      ⟨(sortByRelevanceDesc (specDedup allMemories)).take (topK.getD 50)⟩

/-! ### Lemmas: the two deduplications agree -/

/-! ### Permission store, embedded from `isPermissionGranted`
(`extension-sdk/src/index.ts`) and from `PermissionManager`
(`extension-sdk/src/permissions.ts`).

The source resolves an omitted domain argument to the current hostname or
`"localhost"` (`domain || window.location?.hostname || "localhost"`, modelled
by `resolveDomain`); the functions below take the resolved target domain. -/

/-- The two capabilities. -/
inductive Capability where
  | read
  | write
deriving DecidableEq, Repr

/-- A capability flag map `{read, write}`. -/
structure Caps where
  read : Bool
  write : Bool
deriving DecidableEq, Repr

/-- Property access `capabilities[capability] === true`. -/
def Caps.get : Caps → Capability → Bool
  | c, .read => c.read
  | c, .write => c.write

/-- A per-domain permission record of the extension SDK store. The
`capabilities` map is optional at the storage level (the collection is parsed
from persisted JSON); `appInfo` and `lastUsed` are uninspected payload. -/
structure PermissionRecord where
  granted : Bool
  grantedAt : Int
  permissions : List String
  capabilities : Option Caps
  revokedAt : Option Int
deriving DecidableEq, Repr

/-- Permission storage: domain-keyed object. -/
abbrev PermStore := List (String × PermissionRecord)

/-- Negation of the guard `!domainPermission?.granted ||
domainPermission.revokedAt`: the record counts as active when `granted` is
true and `revokedAt` is falsy (unset or zero). -/
def recordActive (r : PermissionRecord) : Bool :=
  r.granted && !(jsTruthyInt r.revokedAt)

/-- Message of the TypeError raised by reading a property of `undefined`. -/
def capsTypeErrorMsg : String := "TypeError: cannot read properties of undefined"

/-- `isPermissionGranted(domain?, capability?)` of `createProvider`: fails
closed without a record, rejects inactive records, accepts active records when
no capability is requested, and otherwise reads
`domainPermission.capabilities[capability] === true` - which throws a
TypeError when the stored record has no capability map. -/
def isPermissionGranted (store : PermStore) (targetDomain : String)
    (capability : Option Capability) : Except String Bool :=
  match store.lookup targetDomain with
  | none => .ok false
  | some r =>
      if recordActive r then
        match capability with
        | none => .ok true
        | some c =>
            match r.capabilities with
            | none => .error capsTypeErrorMsg
            | some caps => .ok (caps.get c)
      else .ok false

/-- Domain resolution `appInfo.domain || window.location?.hostname ||
"localhost"`. -/
def resolveDomain (d : Option String) (host : Option String) : String :=
  jsOrS d (jsOrS host "localhost")

/-- A record of the separate `PermissionManager` store (no capability map in
that schema). -/
structure PMRecord where
  granted : Bool
  grantedAt : Int
  permissions : List String
  revokedAt : Option Int
deriving DecidableEq, Repr

/-- The `PermissionManager` permission storage. -/
abbrev PMStore := List (String × PMRecord)

/-- `PermissionManager.isPermissionGranted(domain)`:
`domainPermission?.granted === true && !domainPermission.revokedAt`. -/
def PM.isPermissionGranted (store : PMStore) (domain : String) : Bool :=
  match store.lookup domain with
  | none => false
  | some r => r.granted && !(jsTruthyInt r.revokedAt)

/-- `PermissionManager.revokePermission(domain)`: when a record exists, set
`granted := false` and `revokedAt := Date.now()`, keeping the rest. -/
def PM.revokePermission (store : PMStore) (domain : String) (now : Int) :
    PMStore :=
  match store.lookup domain with
  | none => store
  | some r =>
      objSet store domain { r with granted := false, revokedAt := some now }

/-! ### Permission request, embedded from `requestPermission`
(`extension-sdk/src/index.ts`, browser branch; the headless test branch
auto-grants and never reaches the dialog). -/

/-- The caller-declared application identity; `appName` is display payload. -/
structure AppInfo where
  domain : Option String
  requestedCapabilities : Option Caps
deriving Repr

/-- Answers of the `window.confirm` dialogs: the base grant question and the
per-capability follow-ups. -/
structure UI where
  grantBase : Bool
  allowRead : Bool
  allowWrite : Bool
deriving Repr

/-- The result shape returned to the caller. -/
structure PermissionResult where
  granted : Bool
  isFirstTime : Bool
  permissions : List String
  capabilities : Option Caps
  domain : String
deriving DecidableEq, Repr

/-- Output of a permission request: the result, the stored collection after
the call, and how many confirm dialogs were shown. -/
structure RequestOut where
  result : PermissionResult
  store : PermStore
  prompts : Nat
deriving DecidableEq, Repr

/-- Permission strings built from the granted capability flags. -/
def grantedPermissionList (caps : Caps) : List String :=
  (if caps.read then ["context.read"] else []) ++
    (if caps.write then ["context.write"] else [])

/-- The dialog-and-persist tail of `requestPermission`, reached when the
domain is not already granted: ask the base question, ask per requested
capability, then persist either the grant or the denial tombstone. -/
def requestContinue (store : PermStore) (domain : String)
    (reqCapsOpt : Option Caps) (ui : UI) (isFirstTime : Bool) (now : Int) :
    RequestOut :=
  let reqCaps := reqCapsOpt.getD ⟨true, false⟩
  let prompts := 1 + (if ui.grantBase && reqCaps.read then 1 else 0) +
    (if ui.grantBase && reqCaps.write then 1 else 0)
  if ui.grantBase then
    let caps : Caps := ⟨reqCaps.read && ui.allowRead,
      reqCaps.write && ui.allowWrite⟩
    let perms := grantedPermissionList caps
    ⟨⟨true, isFirstTime, perms, some caps, domain⟩,
      objSet store domain ⟨true, now, perms, some caps, none⟩, prompts⟩
  else
    ⟨⟨false, isFirstTime, [], some ⟨false, false⟩, domain⟩,
      objSet store domain ⟨false, now, [], some ⟨false, false⟩, none⟩, prompts⟩

/-- `requestPermission(appInfo)`: short-circuit with the existing grant when
`isPermissionGranted(domain)` already holds, otherwise determine
`isFirstTime` from record presence and run the dialog flow. -/
def requestPermission (store : PermStore) (appInfo : AppInfo) (ui : UI)
    (host : Option String) (now : Int) : RequestOut :=
  match store.lookup (resolveDomain appInfo.domain host) with
  | some r =>
      if recordActive r then
        ⟨⟨true, false, r.permissions, r.capabilities,
          resolveDomain appInfo.domain host⟩, store, 0⟩
      else requestContinue store (resolveDomain appInfo.domain host)
        appInfo.requestedCapabilities ui false now
  | none => requestContinue store (resolveDomain appInfo.domain host)
      appInfo.requestedCapabilities ui true now

instance {ε α : Type} [DecidableEq ε] [DecidableEq α] :
    DecidableEq (Except ε α) := fun a b =>
  match a, b with
  | .ok x, .ok y =>
      if h : x = y then .isTrue (by rw [h]) else
        .isFalse (fun hh => h (by cases hh; rfl))
  | .error x, .error y =>
      if h : x = y then .isTrue (by rw [h]) else
        .isFalse (fun hh => h (by cases hh; rfl))
  | .ok _, .error _ => .isFalse (fun hh => by cases hh)
  | .error _, .ok _ => .isFalse (fun hh => by cases hh)

/-- Record with `granted: true` but `revokedAt: 0` - set yet falsy. -/
def c2recRevZero : PermissionRecord := ⟨true, 1, [], some ⟨true, false⟩, some 0⟩

/-- Active record whose persisted JSON carries no capability map. -/
def c2recNoCaps : PermissionRecord := ⟨true, 1, [], none, none⟩

/-- Store holding `c2recRevZero`. -/
def c2storeRevZero : PermStore := [("app.example", c2recRevZero)]

/-- Store holding `c2recNoCaps`. -/
def c2storeNoCaps : PermStore := [("app.example", c2recNoCaps)]

/-- Store with a clean grant for the witness. -/
def c2grantStore : PermStore :=
  [("shop.example", ⟨true, 5, ["context.read"], some ⟨true, false⟩, none⟩)]

/-- PermissionManager store with a live grant. -/
def pmDemo : PMStore := [("shop.example", ⟨true, 1, [], none⟩)]

/-- PermissionManager store whose record still says `granted: true` but
carries a revocation stamp. -/
def pmRevoked : PMStore := [("shop.example", ⟨true, 1, [], some 9⟩)]

/-- Dummy record used to instantiate the unused record binder. -/
def dummyRec : PermissionRecord := ⟨false, 0, [], none, none⟩

/-- Store with an active grant for the C8 witness. -/
def c8grantStore : PermStore :=
  [("chat.example", ⟨true, 2, ["context.read"], some ⟨true, false⟩, none⟩)]

/-- AppInfo naming the granted domain. -/
def c8appInfo : AppInfo := ⟨some "chat.example", some ⟨true, true⟩⟩

/-- Dialog oracle that denies the base question. -/
def c8denyUI : UI := ⟨false, true, true⟩

/-- Dialog oracle that grants everything. -/
def c8grantUI : UI := ⟨true, true, true⟩

/-! ### Provider read path: `createProvider.getContext`
(`extension-sdk/src/index.ts`) and `BaseProvider.getContext` with
`ContextBuilder.processMemories` (`context-builder.ts`). -/

/-- Raw context data returned by the underlying context source. -/
structure ContextData where
  memories : List Memory
deriving DecidableEq, Repr

/-- Provider-level context result: on failure `error` is a plain message
string (the registry later wraps it in a coded error object). -/
structure ProvResult where
  success : Bool
  data : Option MemoryContext
  error : Option String
deriving DecidableEq, Repr

/-- Error taxonomy of the protocol. -/
inductive ErrorCode where
  | NOT_AVAILABLE
  | PERMISSION_DENIED
  | NO_DATA
  | PROVIDER_ERROR
  | INVALID_OPTIONS
deriving DecidableEq, Repr

/-- Coded protocol error object. -/
structure ProtocolErr where
  code : ErrorCode
  message : String
  recoverable : Bool
deriving DecidableEq, Repr

/-- Registry-level context result. -/
structure ContextResult where
  success : Bool
  data : Option MemoryContext
  error : Option ProtocolErr
deriving DecidableEq, Repr

/-- Message of the provider-level permission failure. -/
def permissionDeniedMsg : String := "Permission required to access memory data"

/-- `getContext` of `createProvider`: resolve the current domain, check the
read permission (a thrown TypeError from the check lands in the outer catch
and becomes a failure carrying the thrown message), run the context source
(`getContextData`; a throw becomes a failure carrying the message), and on
success return the first 50 memories unchanged (`memories.slice(0, 50)`). -/
def providerGetContext (permStore : PermStore) (host : Option String)
    (getContextData : Except String ContextData) : ProvResult :=
  match isPermissionGranted permStore (jsOrS host "localhost") (some .read) with
  | .error msg => ⟨false, none, some msg⟩
  | .ok false => ⟨false, none, some permissionDeniedMsg⟩
  | .ok true =>
      match getContextData with
      | .error msg => ⟨false, none, some msg⟩
      | .ok cd => ⟨true, some ⟨cd.memories.take 50⟩, none⟩

/-- Clamp `Math.max(0, Math.min(1, relevance))`. -/
def clampQ (x : ℚ) : ℚ := max 0 (min 1 x)

/-- `ContextBuilder.processMemories`: drop entries whose trimmed `text` or
`source` is empty (the `typeof` checks on `relevance` and `timestamp` always
hold in the typed model), normalize the kept entries (trim text and source,
clamp relevance to [0,1]), sort by relevance descending, and truncate to
`options?.topK ?? config.topK` (the builder defaults `config.topK` to 50). -/
def processMemories (memories : List Memory) (optTopK : Option Nat)
    (cfgTopK : Nat) : List Memory :=
  (sortByRelevanceDesc
    ((memories.filter (fun m =>
        decide (jsTrim m.text ≠ []) && decide (jsTrim m.source ≠ []))).map
      (fun m => ⟨jsTrim m.text, clampQ m.relevance, m.timestamp,
        jsTrim m.source⟩))).take (optTopK.getD cfgTopK)

/-- `BaseProvider.getContext` (registry-manager flavour, which returns coded
errors): permission check, then the context source, then
`ContextBuilder.buildContextResult`; a throw of the source is converted to a
`PROVIDER_ERROR` result. The permission verdict of the overridable
`getPermissionState` is abstracted as a boolean. -/
def baseProviderGetContext (granted : Bool)
    (getContextData : Except String ContextData) (optTopK : Option Nat)
    (cfgTopK : Nat) : ContextResult :=
  if !granted then
    ⟨false, none, some ⟨.PERMISSION_DENIED, permissionDeniedMsg, true⟩⟩
  else
    match getContextData with
    | .error msg => ⟨false, none, some ⟨.PROVIDER_ERROR, msg, false⟩⟩
    | .ok cd => ⟨true, some ⟨processMemories cd.memories optTopK cfgTopK⟩, none⟩

/-! ### Write-back store: `getStoredWebAgentContexts` and
`handleWebAgentContext` (`extension-sdk/src/index.ts`). -/

/-- A submitted web agent context bundle; `agentName`, `contextType` and
`source` are uninspected payload. -/
structure WACtx where
  agentId : String
  sessionId : Option String
  agentType : Option String
  timestamp : Int
  domain : String
  memories : List Memory
  expiresAt : Option Int
deriving DecidableEq, Repr

/-- A stored web agent context entry. -/
structure StoredCtx where
  context : WACtx
  receivedAt : Int
  processed : Bool
  expiresAt : Option Int
  size : Nat
deriving DecidableEq, Repr

/-- The contextId-keyed web agent context storage. -/
abbrev WAStore := List (String × StoredCtx)

/-- Comparison `expiresAt > now` on an optional field: `undefined > now` is
false. -/
def jsGtInt (a : Option Int) (b : Int) : Bool :=
  match a with
  | some t => decide (t > b)
  | none => false

/-- The retention test of the cleanup loop:
`!typedContextData.expiresAt || typedContextData.expiresAt > now`. -/
def keepEntry (now : Int) (e : StoredCtx) : Bool :=
  !(jsTruthyInt e.expiresAt) || jsGtInt e.expiresAt now

/-- `getStoredWebAgentContexts()`: filter out entries failing the retention
test, return the cleaned collection, and persist it back only when something
was removed. The pair is (returned collection, persisted collection). -/
def readWebAgentStore (store : WAStore) (now : Int) : WAStore × WAStore :=
  let cleaned := store.filter (fun e => keepEntry now e.2)
  (cleaned, if cleaned.length ≠ store.length then cleaned else store)

/-- Comparator order of `.sort((a, b) => a[1].receivedAt - b[1].receivedAt)`. -/
def recvLe (a b : String × StoredCtx) : Prop :=
  a.2.receivedAt ≤ b.2.receivedAt

instance : DecidableRel recvLe := fun a b =>
  inferInstanceAs (Decidable (a.2.receivedAt ≤ b.2.receivedAt))

instance : IsTotal (String × StoredCtx) recvLe :=
  ⟨fun a b => le_total a.2.receivedAt b.2.receivedAt⟩

instance : IsTrans (String × StoredCtx) recvLe :=
  ⟨fun _ _ _ h1 h2 => le_trans h1 h2⟩

/-- Stable ascending sort by `receivedAt`. -/
def sortByReceivedAt (l : WAStore) : WAStore := l.insertionSort recvLe

/-- The eviction step: when the cleaned collection is at or beyond the limit,
sort by `receivedAt` ascending and delete the first `length - limit + 1`
entries by id. -/
def evictOldest (cleaned : WAStore) (limit : Nat) : WAStore :=
  if cleaned.length ≥ limit then
    cleaned.filter (fun e =>
      !(((sortByReceivedAt cleaned).take (cleaned.length - limit + 1)).map
          Prod.fst).contains e.1)
  else cleaned

/-- Derived id `agentId_sessionId(or "default")_timestamp`. -/
def contextIdOf (ctx : WACtx) : String :=
  ctx.agentId ++ "_" ++ jsOrS ctx.sessionId "default" ++ "_" ++
    toString ctx.timestamp

/-- Result of `provideContext` / `contributeMemory`. `storedUntil` carries the
computed expiry of the success envelope. -/
structure ProvisionResult where
  success : Bool
  processed : Bool
  acknowledged : Bool
  memoriesAccepted : Nat
  memoriesRejected : Nat
  contextId : Option String
  error : Option ProtocolErr
  storedUntil : Option Int
deriving DecidableEq, Repr

/-- The provider configuration fields that the write path branches on. -/
structure WAConfig where
  allowedAgentTypes : Option (List String)
  maxWebAgentContextSize : Option Nat
  webAgentStorageLimit : Option Nat
deriving Repr

/-- Check `config.allowedAgentTypes && context.agentType &&
!config.allowedAgentTypes.includes(context.agentType)`: an absent allow-list
or an absent/empty `agentType` skips the check. -/
def agentTypeRejected (cfg : WAConfig) (ctx : WACtx) : Bool :=
  match cfg.allowedAgentTypes, ctx.agentType with
  | some allow, some t => if t = "" then false else !(allow.contains t)
  | _, _ => false

/-- Check `config.maxWebAgentContextSize && contextSize > max`: an absent or
zero maximum skips the check. -/
def sizeRejected (cfg : WAConfig) (size : Nat) : Bool :=
  match cfg.maxWebAgentContextSize with
  | some m => if m = 0 then false else decide (size > m)
  | none => false

/-- A failure envelope of the write path. -/
def provisionFailure (code : ErrorCode) (msg : String) (recoverable : Bool)
    (rejected : Nat) : ProvisionResult :=
  ⟨false, false, false, 0, rejected, none, some ⟨code, msg, recoverable⟩, none⟩

/-- `handleWebAgentContext(context, options)`: write-permission check for the
context domain (a TypeError thrown by the check is caught by the surrounding
try and converted to a `PROVIDER_ERROR` result), agent-type allow-list check,
serialized-size check, then the store transaction - lazy-expiry read, evict
oldest while at or beyond the limit, insert keyed by the derived id, run the
optional custom handler (whose own throw is caught, logged, and swallowed),
mark the entry processed - and finally return the handler result when the
handler produced one, else the default success envelope. `ephemeral` models
`options?.storageType === "ephemeral"`; `size` is the serialized byte length
`JSON.stringify(context).length` computed by the host. -/
def handleWebAgentContext (cfg : WAConfig) (permStore : PermStore)
    (waStore : WAStore) (ctx : WACtx) (ephemeral : Bool) (size : Nat)
    (handlerRes : Option (Except String ProvisionResult)) (now : Int) :
    ProvisionResult × WAStore :=
  match isPermissionGranted permStore ctx.domain (some .write) with
  | .error msg =>
      (provisionFailure .PROVIDER_ERROR msg false ctx.memories.length, waStore)
  | .ok false =>
      (provisionFailure .PERMISSION_DENIED
        ("Permission required for domain: " ++ ctx.domain) true
        ctx.memories.length, waStore)
  | .ok true =>
      if agentTypeRejected cfg ctx then
        (provisionFailure .INVALID_OPTIONS "Agent type is not allowed" false
          ctx.memories.length, waStore)
      else if sizeRejected cfg size then
        (provisionFailure .INVALID_OPTIONS
          "Context size exceeds maximum allowed limit" false
          ctx.memories.length, waStore)
      else
        let cleaned := (readWebAgentStore waStore now).1
        let limit := jsOrNat cfg.webAgentStorageLimit 100
        let afterEvict := evictOldest cleaned limit
        let expiresAt := jsOrInt ctx.expiresAt
          (if ephemeral then now + 300000 else now + 86400000)
        let cid := contextIdOf ctx
        let finalStore := objSet (objSet afterEvict cid
          ⟨ctx, now, false, some expiresAt, size⟩) cid
          ⟨ctx, now, true, some expiresAt, size⟩
        let defaultEnvelope : ProvisionResult :=
          ⟨true, true, true, ctx.memories.length, 0, some cid, none,
            some expiresAt⟩
        match handlerRes with
        | some (.ok r) => (r, finalStore)
        | some (.error _) => (defaultEnvelope, finalStore)
        | none => (defaultEnvelope, finalStore)

/-- Entry whose `expiresAt` is `0` - an instant in the past relative to
`now = 100`. -/
def c7entry : StoredCtx :=
  ⟨⟨"a", none, none, 0, "site.example", [], none⟩, 1, false, some 0, 3⟩

/-- Store holding only `c7entry`. -/
def c7store : WAStore := [("x", c7entry)]

/-- Entry that is still live at `now = 100`. -/
def c7live : StoredCtx :=
  ⟨⟨"b", none, none, 0, "site.example", [], none⟩, 2, false, some 500, 3⟩

/-- Mixed store: one live entry, one elapsed entry. -/
def c7mixed : WAStore :=
  [("x", c7live), ("y", ⟨⟨"c", none, none, 0, "site.example", [], none⟩, 3,
    false, some 50, 3⟩)]

/-- Context number `i` submitted with timestamp `ts`; far-future expiry. -/
def c6ctx (i : Nat) (ts : Int) : WACtx :=
  ⟨"agent" ++ toString i, none, none, ts, "site.example", [], some 1000000⟩

/-- Permission store granting write for the scenario domain. -/
def c6perm : PermStore :=
  [("site.example", ⟨true, 1, [], some ⟨false, true⟩, none⟩)]

/-- Provider configured with a write-back storage limit of 3. -/
def c6cfg : WAConfig := ⟨none, none, some 3⟩

/-- One sequential put of the scenario. -/
def c6put (st : WAStore) (i : Nat) (ts now : Int) : WAStore :=
  (handleWebAgentContext c6cfg c6perm st (c6ctx i ts) false 5 none now).2

/-- Store after the first put. -/
def c6store1 : WAStore := c6put [] 1 1 10

/-- Store after the second put. -/
def c6store2 : WAStore := c6put c6store1 2 2 20

/-- Store after the third put. -/
def c6store3 : WAStore := c6put c6store2 3 3 30

/-- Store after the fourth put. -/
def c6store4 : WAStore := c6put c6store3 4 4 40

/-- A three-entry store with out-of-order `receivedAt` stamps. -/
def c6demoStore : WAStore :=
  [("a", ⟨c6ctx 9 0, 5, false, none, 0⟩),
    ("b", ⟨c6ctx 9 0, 3, false, none, 0⟩),
    ("c", ⟨c6ctx 9 0, 7, false, none, 0⟩)]

/-- Registry conversion of a provider result: `providerResult.error ?
{code: PROVIDER_ERROR, message, recoverable: false} : undefined`. The coded
error object is built only when the provider's error message is truthy - an
absent or empty message leaves the converted result without an error
object. -/
def convertToContextResult (r : ProvResult) : ContextResult :=
  ⟨r.success, r.data,
    match r.error with
    | some msg =>
        if msg = "" then none else some ⟨.PROVIDER_ERROR, msg, false⟩
    | none => none⟩

/-- Write permission store for the C5 counterexample. -/
def c5perm : PermStore :=
  [("site.example", ⟨true, 1, [], some ⟨false, true⟩, none⟩)]

/-- Submitted context of the C5 counterexample. -/
def c5ctx : WACtx := ⟨"bot", none, none, 7, "site.example", [], some 1000000⟩

/-- Context source failure used by the C5 witness. -/
def c5readPerm : PermStore :=
  [("localhost", ⟨true, 1, [], some ⟨true, false⟩, none⟩)]

/-- Permission store whose record lacks the capability map, so the write
check throws. -/
def c5throwPerm : PermStore :=
  [("site.example", ⟨true, 1, [], none, none⟩)]

/-- Memory with blank text and out-of-range relevance. -/
def c9blank : Memory := ⟨[32, 32], 2, 0, [115]⟩

/-- Raw memory list with a blank entry and out-of-range relevances. -/
def c9rawMems : List Memory :=
  [⟨[104], 2, 5, [115]⟩, ⟨[32], 5, 6, [116]⟩, ⟨[105], -1, 7, [117]⟩]

/-! ### Registry, embedded from `createRegistry` (`index.ts` and the registry
manager). A registered provider is abstracted by its id, its permission
verdict and its context result; the provider `Map` is the insertion-ordered
list of registered providers (re-registration replaces in place). Options are
represented by the `topK` they carry - the only field the registry itself
consumes - and flow through to providers and the merge engine unchanged. -/

/-- A registered provider as the registry sees it. -/
structure Provider where
  pid : String
  permGranted : Option String → Bool
  getCtx : Option Nat → ProvResult

/-- Truthiness of an optional string argument: `undefined` and `""` are
falsy. -/
def jsTruthyS (a : Option String) : Bool :=
  match a with
  | some s => s != ""
  | none => false

/-- `providerId ? providers.get(providerId) : Array.from(values())[0]`:
a falsy (absent or empty) id selects the first-registered provider. -/
def selectProvider (provs : List Provider) (pid : Option String) :
    Option Provider :=
  if jsTruthyS pid then provs.find? (fun p => (some p.pid) == pid)
  else provs.head?

/-- The `NOT_AVAILABLE` failure of the registry context path. -/
def notAvailableResult : ContextResult :=
  ⟨false, none, some ⟨.NOT_AVAILABLE, "No memory providers available", true⟩⟩

/-- Registry `getContext(options, providerId?)`: select the target provider
(no permission filtering on this path), fail with `NOT_AVAILABLE` when none
is selected, otherwise convert the provider result. -/
def registryGetContext (provs : List Provider) (options : Option Nat)
    (pid : Option String) : ContextResult :=
  match selectProvider provs pid with
  | none => notAvailableResult
  | some p => convertToContextResult (p.getCtx options)

/-- Providers whose own `isPermissionGranted()` (no domain argument) holds. -/
def availableProviders (provs : List Provider) : List Provider :=
  provs.filter (fun p => p.permGranted none)

/-- Raw results of querying every qualifying provider (`Promise.all` over
`availableProviders.map(p => p.getContext(options))`). -/
def aggResults (provs : List Provider) (options : Option Nat) :
    List ProvResult :=
  (availableProviders provs).map (fun p => p.getCtx options)

/-- The successful-with-data results: `results.filter(r => r.success && r.data)`. -/
def successfulResults (provs : List Provider) (options : Option Nat) :
    List ProvResult :=
  (aggResults provs options).filter (fun r => r.success && r.data.isSome)

/-- The `PERMISSION_DENIED` failure of the aggregation path. -/
def permDeniedAggErr : ProtocolErr :=
  ⟨.PERMISSION_DENIED, "No providers available with permissions", true⟩

/-- The `NO_DATA` failure of the aggregation path. -/
def noDataErr : ProtocolErr :=
  ⟨.NO_DATA, "No providers returned successful context", true⟩

/-- Aggregated context result. Time-derived metadata is omitted;
`providerResults` is the provider-indexed map of raw results. -/
structure AggResult where
  success : Bool
  data : Option MemoryContext
  error : Option ProtocolErr
  providers : List String
  providerResults : List (String × ProvResult)
deriving DecidableEq, Repr

/-- Registry `getAggregatedContext(options)`: filter providers by their own
permission verdict, fail with `PERMISSION_DENIED` when none qualifies, query
all qualifying providers, keep the successful-with-data results, fail with
`NO_DATA` (still reporting every raw result) when none remains, otherwise
return the merge of the successful contexts alongside every raw result. -/
def getAggregatedContext (provs : List Provider) (options : Option Nat) :
    AggResult :=
  if (availableProviders provs).isEmpty then
    ⟨false, none, some permDeniedAggErr, [], []⟩
  else if (successfulResults provs options).isEmpty then
    ⟨false, none, some noDataErr,
      (availableProviders provs).map (fun p => p.pid),
      (availableProviders provs).map (fun p => (p.pid, p.getCtx options))⟩
  else
    ⟨true,
      some (mergeContexts
        ((successfulResults provs options).filterMap (fun r => r.data)) options),
      none,
      (availableProviders provs).map (fun p => p.pid),
      (availableProviders provs).map (fun p => (p.pid, p.getCtx options))⟩

/-- Registry `isPermissionGranted(providerId?, domain?)`: with a truthy id,
exactly that provider's verdict (false when unregistered); otherwise true iff
some registered provider grants. -/
def registryIsPermissionGranted (provs : List Provider) (pid : Option String)
    (domain : Option String) : Bool :=
  if jsTruthyS pid then
    match provs.find? (fun p => (some p.pid) == pid) with
    | some p => p.permGranted domain
    | none => false
  else provs.any (fun p => p.permGranted domain)

/-- One shared memory for the registry witnesses. -/
def demoMem : Memory := ⟨[104, 105], 1, 3, [115]⟩

/-- Granted provider returning one memory. -/
def pGood : Provider :=
  ⟨"p-good", fun _ => true, fun _ => ⟨true, some ⟨[demoMem]⟩, none⟩⟩

/-- Granted provider that fails. -/
def pFail : Provider :=
  ⟨"p-fail", fun _ => true, fun _ => ⟨false, none, some "backend down"⟩⟩

/-- Ungranted provider. -/
def pNoPerm : Provider :=
  ⟨"p-noperm", fun _ => false, fun _ => ⟨true, some ⟨[demoMem]⟩, none⟩⟩

/-- Two-context input for the C1 witness: the same text with different case,
whitespace and relevance, plus a distinct memory. -/
def c1ctxA : MemoryContext := ⟨[⟨[72, 105], 1, 1, [115]⟩]⟩

/-- Second context of the C1 witness. -/
def c1ctxB : MemoryContext :=
  ⟨[⟨[104, 105, 32], 3, 2, [116]⟩, ⟨[106], 2, 3, [117]⟩]⟩

/-! ### Lemmas and claim theorems -/

theorem wsCode_lowerCode (n : Nat) : wsCode (lowerCode n) = wsCode n := by
  unfold lowerCode wsCode
  split
  · next h => simp only [decide_eq_decide]; omega
  · rfl

theorem dropWhile_map {α β : Type} (f : α → β) (p : β → Bool) (l : List α) :
    (l.map f).dropWhile p = (l.dropWhile (fun a => p (f a))).map f := by
  induction l with
  | nil => rfl
  | cons a l ih =>
      simp only [List.map_cons, List.dropWhile_cons]
      by_cases h : p (f a) = true
      · simp [h, ih]
      · simp only [eq_false_of_ne_true h]
        simp

theorem jsTrim_jsToLower (s : JStr) :
    jsTrim (jsToLower s) = jsToLower (jsTrim s) := by
  unfold jsTrim jsToLower
  have hws : (fun a => wsCode (lowerCode a)) = wsCode := funext wsCode_lowerCode
  rw [dropWhile_map, hws, ← List.map_reverse, dropWhile_map, hws,
    ← List.map_reverse]

theorem memKey_eq (m : Memory) : memKeyCode m = memKeySpec m :=
  jsTrim_jsToLower m.text

theorem upsertMem_cons_eq (k : JStr) (m m2 : Memory)
    (rest : List (JStr × Memory)) :
    upsertMem k m ((k, m2) :: rest) =
      (if m.relevance > m2.relevance then (k, m) else (k, m2)) :: rest := by
  simp [upsertMem]

theorem upsertMem_cons_ne (k k2 : JStr) (m m2 : Memory)
    (rest : List (JStr × Memory)) (h : ¬ k2 = k) :
    upsertMem k m ((k2, m2) :: rest) = (k2, m2) :: upsertMem k m rest := by
  simp [upsertMem, h]

/-- The `Map` fold distributes over a head entry: processing the rest of the
stream updates the head entry exactly on the same-key memories and the tail
of the association list exactly on the other-key memories. -/
theorem foldl_upsert_split (l : List Memory) :
    ∀ (k0 : JStr) (w : Memory) (acc : List (JStr × Memory)),
      l.foldl (fun acc m => upsertMem (memKeyCode m) m acc) ((k0, w) :: acc) =
        (k0, (l.filter (fun m => memKeyCode m = k0)).foldl updWinner w) ::
          (l.filter (fun m => ¬ memKeyCode m = k0)).foldl
            (fun acc m => upsertMem (memKeyCode m) m acc) acc := by
  induction l with
  | nil => intro k0 w acc; rfl
  | cons m l ih =>
      intro k0 w acc
      rw [List.foldl_cons]
      by_cases h : memKeyCode m = k0
      · have hup : upsertMem (memKeyCode m) m ((k0, w) :: acc) =
            (k0, updWinner w m) :: acc := by
          rw [h, upsertMem_cons_eq]
          unfold updWinner
          by_cases hr : m.relevance > w.relevance
          · simp [hr]
          · simp [hr]
        rw [hup, ih]
        simp [List.filter_cons, h]
      · have hup : upsertMem (memKeyCode m) m ((k0, w) :: acc) =
            (k0, w) :: upsertMem (memKeyCode m) m acc := by
          exact upsertMem_cons_ne _ _ _ _ _ (fun hh => h hh.symm)
        rw [hup, ih]
        simp [List.filter_cons, h]

theorem dedupFold_le_length_aux :
    ∀ (n : Nat) (l : List Memory), l.length ≤ n → dedupFold l = specDedup l := by
  intro n
  induction n with
  | zero =>
      intro l h
      have : l = [] := List.eq_nil_of_length_eq_zero (Nat.le_zero.mp h)
      subst this
      rw [specDedup]
      rfl
  | succ n ih =>
      intro l h
      cases l with
      | nil => rw [specDedup]; rfl
      | cons m rest =>
          have hstep : dedupFold (m :: rest) =
              specWinner m
                  (rest.filter (fun x => memKeyCode x = memKeyCode m)) ::
                dedupFold
                  (rest.filter (fun x => ¬ memKeyCode x = memKeyCode m)) := by
            unfold dedupFold
            rw [List.foldl_cons,
              show upsertMem (memKeyCode m) m [] = [(memKeyCode m, m)] from rfl,
              foldl_upsert_split]
            rfl
          have hkeyfilter1 :
              rest.filter (fun x => memKeyCode x = memKeyCode m) =
                rest.filter (fun x => memKeySpec x = memKeySpec m) := by
            apply List.filter_congr
            intro x _
            rw [memKey_eq, memKey_eq]
          have hkeyfilter2 :
              rest.filter (fun x => ¬ memKeyCode x = memKeyCode m) =
                rest.filter (fun x => ¬ memKeySpec x = memKeySpec m) := by
            apply List.filter_congr
            intro x _
            rw [memKey_eq, memKey_eq]
          rw [hstep, hkeyfilter1, hkeyfilter2]
          have hlen : (rest.filter
              (fun x => ¬ memKeySpec x = memKeySpec m)).length ≤ n :=
            le_trans (List.length_filter_le _ _) (Nat.le_of_succ_le_succ h)
          rw [ih _ hlen]
          conv_rhs => rw [specDedup]

theorem dedupFold_eq_specDedup (l : List Memory) :
    dedupFold l = specDedup l :=
  dedupFold_le_length_aux l.length l (le_refl _)

/-- C1: for every list of input contexts and optional topK, the merge engine
returns the empty context for zero inputs, the single input unchanged for one
input, and otherwise flattens all memories, deduplicates by the key
lowercase(trim(text)) keeping the higher-relevance memory with the first
encountered winning ties, sorts by relevance descending (stably) and truncates
to the caller-supplied topK, defaulting to 50. -/
theorem C1_mergeContexts_follows_spec (contexts : List MemoryContext)
    (topK : Option Nat) :
    mergeContexts contexts topK = mergeSpec contexts topK ∧
    (∀ c1 c2 rest, contexts = c1 :: c2 :: rest →
      (mergeContexts contexts topK).memories.Pairwise relGe ∧
      (mergeContexts contexts topK).memories.length ≤ topK.getD 50) := by
  constructor
  · cases contexts with
    | nil => rfl
    | cons c1 rest =>
        cases rest with
        | nil => rfl
        | cons c2 rest2 =>
            simp only [mergeContexts, mergeSpec]
            rw [dedupFold_eq_specDedup]
  · intro c1 c2 rest hc
    subst hc
    constructor
    · simp only [mergeContexts, sortByRelevanceDesc]
      exact List.Pairwise.sublist (List.take_sublist _ _)
        (List.sorted_insertionSort relGe _)
    · simp only [mergeContexts]
      exact List.length_take_le _ _

theorem C1_mergeContexts_follows_spec_witness :
    mergeContexts [c1ctxA, c1ctxB] none = mergeSpec [c1ctxA, c1ctxB] none ∧
    (mergeContexts [c1ctxA, c1ctxB] none).memories.Pairwise relGe ∧
    (mergeContexts [c1ctxA, c1ctxB] none).memories.length ≤ 50 :=
  ⟨(C1_mergeContexts_follows_spec [c1ctxA, c1ctxB] none).1,
    ((C1_mergeContexts_follows_spec [c1ctxA, c1ctxB] none).2 c1ctxA c1ctxB []
      rfl).1,
    ((C1_mergeContexts_follows_spec [c1ctxA, c1ctxB] none).2 c1ctxA c1ctxB []
      rfl).2⟩

theorem lookup_objSet {α : Type} (l : List (String × α)) (k : String) (v : α) :
    (objSet l k v).lookup k = some v := by
  induction l with
  | nil => simp [objSet, List.lookup]
  | cons p rest ih =>
      obtain ⟨k2, v2⟩ := p
      by_cases h : k2 = k
      · simp [objSet, h, List.lookup]
      · simp only [objSet, if_neg h]
        rw [List.lookup]
        have : (k == k2) = false := by
          simp [beq_eq_false_iff_ne]
          exact fun hh => h hh.symm
        simp [this, ih]

theorem isPermissionGranted_lookup_some (store : PermStore) (d : String)
    (cap : Option Capability) (r : PermissionRecord)
    (hl : store.lookup d = some r) :
    isPermissionGranted store d cap =
      if recordActive r then
        match cap with
        | none => .ok true
        | some c =>
            match r.capabilities with
            | none => .error capsTypeErrorMsg
            | some caps => .ok (caps.get c)
      else .ok false := by
  unfold isPermissionGranted
  rw [hl]

theorem PM_isPermissionGranted_lookup_some (pm : PMStore) (d : String)
    (r3 : PMRecord) (hl : pm.lookup d = some r3) :
    PM.isPermissionGranted pm d = (r3.granted && !(jsTruthyInt r3.revokedAt)) := by
  unfold PM.isPermissionGranted
  rw [hl]

theorem PM_revokePermission_lookup_some (pm : PMStore) (d : String) (now : Int)
    (r3 : PMRecord) (hl : pm.lookup d = some r3) :
    PM.revokePermission pm d now =
      objSet pm d { r3 with granted := false, revokedAt := some now } := by
  unfold PM.revokePermission
  rw [hl]

/-- C2 counterexample: with `revokedAt` set to `0` the check still returns
true (the claim allows true only when `revokedAt` is unset), and with the
capability map absent the capability check throws a TypeError instead of
treating every capability as false. -/
theorem C2_counterexample :
    (isPermissionGranted c2storeRevZero "app.example" (some .read) = .ok true ∧
      c2recRevZero.revokedAt = some 0) ∧
    isPermissionGranted c2storeNoCaps "app.example" (some .read) =
      .error capsTypeErrorMsg ∧
    ¬ isPermissionGranted c2storeNoCaps "app.example" (some .read) = .ok false := by
  refine ⟨⟨?_, rfl⟩, ?_, ?_⟩ <;> decide

/-- C2 (amended): `isPermissionGranted` returns true only when a stored record
for the domain has `granted == true` and a falsy `revokedAt` (unset or zero)
and, when a capability is specified, a present capability map with that flag
true; with no record it returns false for every capability; when the
capability map is absent, a capability-specific check on an active record
throws a TypeError instead of returning false, while the general check still
returns true; and after `revokePermission(domain)` the `PermissionManager`
check is false, as it is for any record with a nonzero `revokedAt`, regardless
of the record's `granted` flag. -/
theorem C2_isPermissionGranted_gate (store : PermStore) (d : String)
    (cap : Option Capability) (r : PermissionRecord) :
    (isPermissionGranted store d cap = .ok true →
      ∃ r2, store.lookup d = some r2 ∧ r2.granted = true ∧
        jsTruthyInt r2.revokedAt = false ∧
        ∀ c, cap = some c →
          ∃ caps, r2.capabilities = some caps ∧ caps.get c = true) ∧
    (store.lookup d = none → isPermissionGranted store d cap = .ok false) ∧
    (store.lookup d = some r → recordActive r = true → r.capabilities = none →
      ∀ c, isPermissionGranted store d (some c) = .error capsTypeErrorMsg) ∧
    (store.lookup d = some r → recordActive r = true →
      isPermissionGranted store d none = .ok true) ∧
    (∀ (pm : PMStore) (r3 : PMRecord) (now : Int), pm.lookup d = some r3 →
      PM.isPermissionGranted (PM.revokePermission pm d now) d = false) ∧
    (∀ (pm : PMStore) (r3 : PMRecord) (t : Int), t ≠ 0 →
      pm.lookup d = some r3 → r3.revokedAt = some t →
      PM.isPermissionGranted pm d = false) := by
  refine ⟨?_, ?_, ?_, ?_, ?_, ?_⟩
  · intro h
    cases hl : store.lookup d with
    | none =>
        unfold isPermissionGranted at h
        rw [hl] at h
        exact absurd h (by simp)
    | some r2 =>
        rw [isPermissionGranted_lookup_some store d cap r2 hl] at h
        by_cases ha : recordActive r2 = true
        · rw [if_pos ha] at h
          have hg : r2.granted = true ∧ jsTruthyInt r2.revokedAt = false := by
            unfold recordActive at ha
            constructor
            · exact (Bool.and_eq_true _ _ |>.mp ha).1
            · have := (Bool.and_eq_true _ _ |>.mp ha).2
              simpa using this
          refine ⟨r2, rfl, hg.1, hg.2, ?_⟩
          intro c hc
          subst hc
          cases hcaps : r2.capabilities with
          | none => rw [hcaps] at h; exact absurd h (by simp)
          | some caps =>
              rw [hcaps] at h
              refine ⟨caps, rfl, ?_⟩
              simpa using h
        · rw [if_neg ha] at h
          exact absurd h (by simp)
  · intro hl
    unfold isPermissionGranted
    rw [hl]
  · intro hl ha hcaps c
    rw [isPermissionGranted_lookup_some store d (some c) r hl, if_pos ha, hcaps]
  · intro hl ha
    rw [isPermissionGranted_lookup_some store d none r hl, if_pos ha]
  · intro pm r3 now hl
    rw [PM_revokePermission_lookup_some pm d now r3 hl,
      PM_isPermissionGranted_lookup_some _ d _ (lookup_objSet pm d _)]
    simp
  · intro pm r3 t ht hl hrev
    rw [PM_isPermissionGranted_lookup_some pm d r3 hl, hrev]
    have hbt : (t != 0) = true := by simpa using ht
    simp [jsTruthyInt, hbt]

theorem C2_isPermissionGranted_gate_witness :
    (∃ r2, c2grantStore.lookup "shop.example" = some r2 ∧ r2.granted = true ∧
      jsTruthyInt r2.revokedAt = false ∧
      ∀ c, (some Capability.read) = some c →
        ∃ caps, r2.capabilities = some caps ∧ caps.get c = true) ∧
    isPermissionGranted [] "shop.example" none = .ok false ∧
    isPermissionGranted c2storeNoCaps "app.example" (some .read) =
      .error capsTypeErrorMsg ∧
    isPermissionGranted c2storeNoCaps "app.example" none = .ok true ∧
    PM.isPermissionGranted
      (PM.revokePermission pmDemo "shop.example" 777) "shop.example" = false ∧
    PM.isPermissionGranted pmRevoked "shop.example" = false :=
  ⟨(C2_isPermissionGranted_gate c2grantStore "shop.example"
      (some .read) dummyRec).1 (by decide),
    (C2_isPermissionGranted_gate ([] : PermStore) "shop.example" none
      dummyRec).2.1 rfl,
    (C2_isPermissionGranted_gate c2storeNoCaps "app.example" (some .read)
      c2recNoCaps).2.2.1 (by decide) (by decide) rfl Capability.read,
    (C2_isPermissionGranted_gate c2storeNoCaps "app.example" none
      c2recNoCaps).2.2.2.1 (by decide) (by decide),
    (C2_isPermissionGranted_gate c2grantStore "shop.example" none
      dummyRec).2.2.2.2.1 pmDemo ⟨true, 1, [], none⟩ 777 (by decide),
    (C2_isPermissionGranted_gate c2grantStore "shop.example" none
      dummyRec).2.2.2.2.2 pmRevoked ⟨true, 1, [], some 9⟩ 9 (by decide)
      (by decide) rfl⟩

theorem requestPermission_lookup_some (store : PermStore) (appInfo : AppInfo)
    (ui : UI) (host : Option String) (now : Int) (r : PermissionRecord)
    (hl : store.lookup (resolveDomain appInfo.domain host) = some r) :
    requestPermission store appInfo ui host now =
      if recordActive r then
        ⟨⟨true, false, r.permissions, r.capabilities,
          resolveDomain appInfo.domain host⟩, store, 0⟩
      else requestContinue store (resolveDomain appInfo.domain host)
        appInfo.requestedCapabilities ui false now := by
  unfold requestPermission
  rw [hl]

theorem requestPermission_lookup_none (store : PermStore) (appInfo : AppInfo)
    (ui : UI) (host : Option String) (now : Int)
    (hl : store.lookup (resolveDomain appInfo.domain host) = none) :
    requestPermission store appInfo ui host now =
      requestContinue store (resolveDomain appInfo.domain host)
        appInfo.requestedCapabilities ui true now := by
  unfold requestPermission
  rw [hl]

theorem requestContinue_denied (store : PermStore) (dom : String)
    (caps : Option Caps) (ui : UI) (isFT : Bool) (now : Int)
    (h : ui.grantBase = false) :
    requestContinue store dom caps ui isFT now =
      ⟨⟨false, isFT, [], some ⟨false, false⟩, dom⟩,
        objSet store dom ⟨false, now, [], some ⟨false, false⟩, none⟩, 1⟩ := by
  unfold requestContinue
  rw [h]
  simp

theorem requestContinue_isFirstTime (store : PermStore) (dom : String)
    (caps : Option Caps) (ui : UI) (isFT : Bool) (now : Int) :
    (requestContinue store dom caps ui isFT now).result.isFirstTime = isFT := by
  unfold requestContinue
  by_cases h : ui.grantBase = true
  · simp [h]
  · simp [Bool.eq_false_iff.mpr h]

theorem recordActive_false_of_not_granted (store : PermStore) (d : String)
    (r : PermissionRecord) (hl : store.lookup d = some r)
    (h : isPermissionGranted store d none = .ok false) :
    recordActive r = false := by
  rw [isPermissionGranted_lookup_some store d none r hl] at h
  by_cases ha : recordActive r = true
  · rw [if_pos ha] at h
    exact absurd h (by simp)
  · exact Bool.eq_false_iff.mpr ha

/-- C8: requestPermission is idempotent once granted: when the resolved domain
is already granted, the call returns the existing grant with isFirstTime
false, shows no dialog and leaves the store unchanged; and a denial persists a
record with granted false and empty capability flags, after which a further
request for the same domain reports isFirstTime false. -/
theorem C8_requestPermission_idempotent (store : PermStore)
    (appInfo : AppInfo) (ui : UI) (host : Option String) (now : Int)
    (r : PermissionRecord) :
    (store.lookup (resolveDomain appInfo.domain host) = some r →
      recordActive r = true →
      requestPermission store appInfo ui host now =
        ⟨⟨true, false, r.permissions, r.capabilities,
          resolveDomain appInfo.domain host⟩, store, 0⟩) ∧
    (ui.grantBase = false →
      isPermissionGranted store (resolveDomain appInfo.domain host) none =
        .ok false →
      (requestPermission store appInfo ui host now).result.granted = false ∧
      (requestPermission store appInfo ui host now).result.permissions = [] ∧
      (requestPermission store appInfo ui host now).store.lookup
          (resolveDomain appInfo.domain host) =
        some ⟨false, now, [], some ⟨false, false⟩, none⟩ ∧
      ∀ (ui2 : UI) (now2 : Int),
        (requestPermission (requestPermission store appInfo ui host now).store
            appInfo ui2 host now2).result.isFirstTime = false) := by
  constructor
  · intro hl ha
    rw [requestPermission_lookup_some store appInfo ui host now r hl, if_pos ha]
  · intro hgb hng
    have hden : requestPermission store appInfo ui host now =
        requestContinue store (resolveDomain appInfo.domain host)
          appInfo.requestedCapabilities ui
          ((store.lookup (resolveDomain appInfo.domain host)).isNone) now := by
      cases hl : store.lookup (resolveDomain appInfo.domain host) with
      | none =>
          rw [requestPermission_lookup_none store appInfo ui host now hl]
          rfl
      | some r2 =>
          have ha := recordActive_false_of_not_granted store _ r2 hl hng
          rw [requestPermission_lookup_some store appInfo ui host now r2 hl,
            if_neg (by rw [ha]; exact Bool.false_ne_true)]
          rfl
    rw [hden, requestContinue_denied _ _ _ _ _ _ hgb]
    refine ⟨rfl, rfl, lookup_objSet _ _ _, ?_⟩
    intro ui2 now2
    have hl2 : (objSet store (resolveDomain appInfo.domain host)
        (⟨false, now, [], some ⟨false, false⟩, none⟩ : PermissionRecord)).lookup
        (resolveDomain appInfo.domain host) =
        some ⟨false, now, [], some ⟨false, false⟩, none⟩ :=
      lookup_objSet _ _ _
    rw [requestPermission_lookup_some _ appInfo ui2 host now2 _ hl2,
      if_neg (by unfold recordActive; simp)]
    exact requestContinue_isFirstTime _ _ _ _ _ _

theorem C8_requestPermission_idempotent_witness :
    (requestPermission c8grantStore c8appInfo c8grantUI none 9 =
      ⟨⟨true, false, ["context.read"], some ⟨true, false⟩, "chat.example"⟩,
        c8grantStore, 0⟩) ∧
    ((requestPermission [] c8appInfo c8denyUI none 9).result.granted = false ∧
      (requestPermission [] c8appInfo c8denyUI none 9).result.permissions = [] ∧
      (requestPermission [] c8appInfo c8denyUI none 9).store.lookup
          (resolveDomain c8appInfo.domain none) =
        some ⟨false, 9, [], some ⟨false, false⟩, none⟩ ∧
      ∀ (ui2 : UI) (now2 : Int),
        (requestPermission (requestPermission [] c8appInfo c8denyUI none 9).store
            c8appInfo ui2 none now2).result.isFirstTime = false) :=
  ⟨(C8_requestPermission_idempotent c8grantStore c8appInfo c8grantUI none 9
      ⟨true, 2, ["context.read"], some ⟨true, false⟩, none⟩).1
      (by decide) (by decide),
    (C8_requestPermission_idempotent ([] : PermStore) c8appInfo c8denyUI none 9
      dummyRec).2 rfl (by decide)⟩

theorem keepEntry_iff (now : Int) (e : StoredCtx) :
    keepEntry now e = true ↔
      (e.expiresAt = none ∨ e.expiresAt = some 0 ∨
        ∃ t, e.expiresAt = some t ∧ now < t) := by
  unfold keepEntry jsTruthyInt jsGtInt
  cases h : e.expiresAt with
  | none => simp
  | some t =>
      simp only [h]
      by_cases ht : t = 0
      · subst ht
        simp
      · have hbt : (t != 0) = true := by simpa using ht
        rw [hbt]
        simp only [Bool.not_true, Bool.false_or, decide_eq_true_eq]
        constructor
        · intro hgt
          exact Or.inr (Or.inr ⟨t, rfl, hgt⟩)
        · rintro (hc | hc | ⟨t2, h2, hlt⟩)
          · exact absurd hc (by simp)
          · injection hc with h0
            exact absurd h0 ht
          · injection h2 with h0
            subst h0
            exact hlt

/-- C7 counterexample: the entry with `expiresAt = 0` lies in the past at
`now = 100`, yet a read returns it and persists it - the claim requires every
entry whose `expiresAt` has passed to be excluded and purged. -/
theorem C7_counterexample :
    (readWebAgentStore c7store 100).1 = c7store ∧
    (readWebAgentStore c7store 100).2 = c7store ∧
    c7entry.expiresAt = some 0 ∧ (0 : Int) < 100 := by
  refine ⟨by decide, by decide, rfl, by decide⟩

/-- C7 (amended): a read of the full write-back store returns exactly the
entries whose `expiresAt` is unset, zero, or strictly later than `now` (so an
entry with a nonzero elapsed expiry is excluded; a zero `expiresAt` is falsy
and treated as no expiry), the persisted collection after the read equals the
returned one, and reading again removes nothing further; purging happens only
through this read. -/
theorem C7_lazy_expiry (store : WAStore) (now : Int) :
    (∀ e ∈ (readWebAgentStore store now).1,
      e.2.expiresAt = none ∨ e.2.expiresAt = some 0 ∨
        ∃ t, e.2.expiresAt = some t ∧ now < t) ∧
    (∀ e ∈ store,
      (e.2.expiresAt = none ∨ e.2.expiresAt = some 0 ∨
        ∃ t, e.2.expiresAt = some t ∧ now < t) →
      e ∈ (readWebAgentStore store now).1) ∧
    (readWebAgentStore store now).2 = (readWebAgentStore store now).1 ∧
    readWebAgentStore ((readWebAgentStore store now).2) now =
      ((readWebAgentStore store now).1, (readWebAgentStore store now).1) := by
  have hfst : (readWebAgentStore store now).1 =
      store.filter (fun e => keepEntry now e.2) := rfl
  have hpersist : (readWebAgentStore store now).2 =
      (readWebAgentStore store now).1 := by
    show (if (store.filter (fun e => keepEntry now e.2)).length ≠ store.length
        then store.filter (fun e => keepEntry now e.2) else store) = _
    by_cases hc : (store.filter (fun e => keepEntry now e.2)).length =
        store.length
    · rw [if_neg (by simpa using hc)]
      rw [hfst, List.filter_eq_self.mpr (List.filter_length_eq_length.mp hc)]
    · rw [if_pos hc]
      rfl
  refine ⟨?_, ?_, hpersist, ?_⟩
  · intro e he
    rw [hfst] at he
    exact (keepEntry_iff now e.2).mp (List.mem_filter.mp he).2
  · intro e he hx
    rw [hfst]
    exact List.mem_filter.mpr ⟨he, (keepEntry_iff now e.2).mpr hx⟩
  · rw [hpersist, hfst]
    have hall : ∀ e ∈ store.filter (fun e => keepEntry now e.2),
        keepEntry now e.2 = true := fun e he => (List.mem_filter.mp he).2
    have hre : (store.filter (fun e => keepEntry now e.2)).filter
        (fun e => keepEntry now e.2) = store.filter (fun e => keepEntry now e.2) :=
      List.filter_eq_self.mpr hall
    unfold readWebAgentStore
    simp only [hre]
    rw [if_neg (by simp)]

theorem C7_lazy_expiry_witness :
    ("x", c7live) ∈ (readWebAgentStore c7mixed 100).1 ∧
    (readWebAgentStore c7mixed 100).2 = (readWebAgentStore c7mixed 100).1 :=
  ⟨(C7_lazy_expiry c7mixed 100).2.1 ("x", c7live) (by decide)
      (Or.inr (Or.inr ⟨500, rfl, by decide⟩)),
    (C7_lazy_expiry c7mixed 100).2.2.1⟩

theorem contains_eq_true_iff {l : List String} {x : String} :
    l.contains x = true ↔ x ∈ l := by
  simp [List.contains]

theorem evictOldest_spec (cleaned : WAStore) (limit : Nat)
    (hge : limit ≤ cleaned.length) (hnd : (cleaned.map Prod.fst).Nodup) :
    (evictOldest cleaned limit).length = limit - 1 ∧
    ∀ r ∈ (sortByReceivedAt cleaned).take (cleaned.length - limit + 1),
      ∀ e ∈ evictOldest cleaned limit, r.2.receivedAt ≤ e.2.receivedAt := by
  set sorted := sortByReceivedAt cleaned with hsorteddef
  set k := cleaned.length - limit + 1 with hk
  set pred := fun e : String × StoredCtx =>
    !((sorted.take k).map Prod.fst).contains e.1 with hpred
  have hunfold : evictOldest cleaned limit = cleaned.filter pred := by
    unfold evictOldest
    rw [if_pos hge]
  have hperm : List.Perm sorted cleaned :=
    List.perm_insertionSort recvLe cleaned
  have hsortlen : sorted.length = cleaned.length := hperm.length_eq
  have hndsort : (sorted.map Prod.fst).Nodup :=
    (List.Perm.nodup_iff (List.Perm.map Prod.fst hperm)).mpr hnd
  have hsplit : sorted.take k ++ sorted.drop k = sorted :=
    List.take_append_drop _ _
  have hdisj : ∀ x, x ∈ (sorted.take k).map Prod.fst →
      x ∈ (sorted.drop k).map Prod.fst → False := by
    intro x hx hy
    have hnd2 : ((sorted.take k).map Prod.fst ++
        (sorted.drop k).map Prod.fst).Nodup := by
      rw [← List.map_append, hsplit]
      exact hndsort
    exact (List.nodup_append.mp hnd2).2.2 hx hy
  have hnil : (sorted.take k).filter pred = [] := by
    rw [List.filter_eq_nil_iff]
    intro a ha
    rw [hpred]
    simp only [Bool.not_eq_true', Bool.not_eq_false]
    exact contains_eq_true_iff.mpr (List.mem_map_of_mem Prod.fst ha)
  have hself : (sorted.drop k).filter pred = sorted.drop k := by
    rw [List.filter_eq_self]
    intro a ha
    rw [hpred]
    show (!((sorted.take k).map Prod.fst).contains a.1) = true
    by_cases hc : ((sorted.take k).map Prod.fst).contains a.1 = true
    · exact absurd (hdisj a.1 (contains_eq_true_iff.mp hc)
        (List.mem_map_of_mem Prod.fst ha)) (fun f => f)
    · rw [Bool.eq_false_iff.mpr hc]
      rfl
  have h2 : (sorted.take k ++ sorted.drop k).filter pred = sorted.drop k := by
    rw [List.filter_append, hnil, hself, List.nil_append]
  have h3 : sorted.filter pred = sorted.drop k :=
    ((congrArg (List.filter pred) hsplit).symm).trans h2
  have h1 : List.Perm (cleaned.filter pred) (sorted.filter pred) :=
    List.Perm.filter pred hperm.symm
  have hfilterperm : List.Perm (cleaned.filter pred) (sorted.drop k) := by
    rw [h3] at h1
    exact h1
  constructor
  · rw [hunfold, hfilterperm.length_eq, List.length_drop, hsortlen]
    omega
  · intro r hr e he
    rw [hunfold] at he
    have he2 : e ∈ sorted.drop k := hfilterperm.mem_iff.mp he
    have hsorted : List.Pairwise recvLe (sorted.take k ++ sorted.drop k) := by
      rw [hsplit]
      exact List.sorted_insertionSort recvLe cleaned
    exact (List.pairwise_append.mp hsorted).2.2 r hr e he2

/-- C6: on each put, when the count of non-expired entries is at or beyond the
configured limit, the oldest entries by `receivedAt` are evicted until one
slot is free: post-eviction the store holds `limit - 1` entries and every
evicted entry is at most as recent as every kept one; concretely, with limit 3
and 4 sequential puts with distinct ids, the oldest-by-`receivedAt` entry is
absent after the 4th put and the other 3 remain retrievable. -/
theorem C6_writeback_eviction :
    (∀ (cleaned : WAStore) (limit : Nat), limit ≤ cleaned.length →
      (cleaned.map Prod.fst).Nodup →
      (evictOldest cleaned limit).length = limit - 1 ∧
      ∀ r ∈ (sortByReceivedAt cleaned).take (cleaned.length - limit + 1),
        ∀ e ∈ evictOldest cleaned limit, r.2.receivedAt ≤ e.2.receivedAt) ∧
    (c6store4.map Prod.fst =
      ["agent2_default_2", "agent3_default_3", "agent4_default_4"] ∧
      c6store4.lookup "agent1_default_1" = none ∧
      (c6store4.lookup "agent2_default_2").isSome = true ∧
      (c6store4.lookup "agent3_default_3").isSome = true ∧
      (c6store4.lookup "agent4_default_4").isSome = true) := by
  constructor
  · intro cleaned limit hge hnd
    exact evictOldest_spec cleaned limit hge hnd
  · refine ⟨by decide, by decide, by decide, by decide, by decide⟩

theorem C6_writeback_eviction_witness :
    (evictOldest c6demoStore 3).length = 3 - 1 ∧
    ∀ r ∈ (sortByReceivedAt c6demoStore).take (c6demoStore.length - 3 + 1),
      ∀ e ∈ evictOldest c6demoStore 3, r.2.receivedAt ≤ e.2.receivedAt :=
  C6_writeback_eviction.1 c6demoStore 3 (by decide) (by decide)

/-- C5 counterexample: the custom web-agent-context handler throws, yet
`provideContext` reports `success: true` with no error - the exception is
swallowed and the default success envelope is returned, not a
`PROVIDER_ERROR` failure. -/
theorem C5_counterexample :
    (handleWebAgentContext ⟨none, none, none⟩ c5perm [] c5ctx false 5
        (some (.error "handler boom")) 40).1.success = true ∧
    (handleWebAgentContext ⟨none, none, none⟩ c5perm [] c5ctx false 5
        (some (.error "handler boom")) 40).1.error = none := by
  refine ⟨by decide, by decide⟩

/-- C5 (amended): no public read or write operation lets an exception reach
the caller. A throw of the context source on the read path yields a
success-false result; when the thrown message is nonempty the registry
conversion surfaces it with code `PROVIDER_ERROR`, while an empty thrown
message is falsy and leaves the converted failure without an error object;
the class-based provider codes the message `PROVIDER_ERROR` directly; a
throw inside the write-path body (the permission check) yields a
`PROVIDER_ERROR` failure and leaves the store untouched; a throw of the
optional custom handler on the write path is swallowed - the operation still
returns the default success envelope. -/
theorem C5_no_exception_escapes (permStore : PermStore) (host : Option String)
    (msg : String) (optTopK : Option Nat) (cfgTopK : Nat) (cfg : WAConfig)
    (waStore : WAStore) (ctx : WACtx) (ephemeral : Bool) (size : Nat)
    (now : Int) :
    (isPermissionGranted permStore (jsOrS host "localhost") (some .read) =
        .ok true →
      msg ≠ "" →
      convertToContextResult (providerGetContext permStore host (.error msg)) =
        ⟨false, none, some ⟨.PROVIDER_ERROR, msg, false⟩⟩) ∧
    (isPermissionGranted permStore (jsOrS host "localhost") (some .read) =
        .ok true →
      convertToContextResult (providerGetContext permStore host (.error "")) =
        ⟨false, none, none⟩) ∧
    (baseProviderGetContext true (.error msg) optTopK cfgTopK =
      ⟨false, none, some ⟨.PROVIDER_ERROR, msg, false⟩⟩) ∧
    (isPermissionGranted permStore ctx.domain (some .write) = .error msg →
      handleWebAgentContext cfg permStore waStore ctx ephemeral size
          (some (.error "handler fails")) now =
        (provisionFailure .PROVIDER_ERROR msg false ctx.memories.length,
          waStore)) ∧
    (isPermissionGranted permStore ctx.domain (some .write) = .ok true →
      agentTypeRejected cfg ctx = false → sizeRejected cfg size = false →
      (handleWebAgentContext cfg permStore waStore ctx ephemeral size
          (some (.error msg)) now).1.success = true ∧
      (handleWebAgentContext cfg permStore waStore ctx ephemeral size
          (some (.error msg)) now).1.error = none) := by
  refine ⟨?_, ?_, ?_, ?_, ?_⟩
  · intro hperm hmsg
    unfold providerGetContext
    rw [hperm]
    show ContextResult.mk false none
      (if msg = "" then none
        else some ⟨.PROVIDER_ERROR, msg, false⟩) = _
    rw [if_neg hmsg]
  · intro hperm
    unfold providerGetContext
    rw [hperm]
    rfl
  · rfl
  · intro hperm
    unfold handleWebAgentContext
    rw [hperm]
  · intro hperm hagent hsize
    unfold handleWebAgentContext
    rw [hperm]
    simp [hagent, hsize]

theorem C5_no_exception_escapes_witness :
    (convertToContextResult
        (providerGetContext c5readPerm none (.error "source boom")) =
      ⟨false, none, some ⟨.PROVIDER_ERROR, "source boom", false⟩⟩) ∧
    (convertToContextResult
        (providerGetContext c5readPerm none (.error "")) =
      ⟨false, none, none⟩) ∧
    (baseProviderGetContext true (.error "source boom") none 50 =
      ⟨false, none, some ⟨.PROVIDER_ERROR, "source boom", false⟩⟩) ∧
    (handleWebAgentContext ⟨none, none, none⟩ c5throwPerm [] c5ctx false 5
        (some (.error "handler fails")) 40 =
      (provisionFailure .PROVIDER_ERROR capsTypeErrorMsg false 0, [])) ∧
    ((handleWebAgentContext ⟨none, none, none⟩ c5perm [] c5ctx false 5
        (some (.error "handler boom2")) 40).1.success = true ∧
      (handleWebAgentContext ⟨none, none, none⟩ c5perm [] c5ctx false 5
        (some (.error "handler boom2")) 40).1.error = none) :=
  ⟨(C5_no_exception_escapes c5readPerm none "source boom" none 50
      ⟨none, none, none⟩ [] c5ctx false 5 40).1 (by decide) (by decide),
    (C5_no_exception_escapes c5readPerm none "source boom" none 50
      ⟨none, none, none⟩ [] c5ctx false 5 40).2.1 (by decide),
    (C5_no_exception_escapes c5readPerm none "source boom" none 50
      ⟨none, none, none⟩ [] c5ctx false 5 40).2.2.1,
    (C5_no_exception_escapes c5throwPerm none capsTypeErrorMsg none 50
      ⟨none, none, none⟩ [] c5ctx false 5 40).2.2.2.1 (by decide),
    (C5_no_exception_escapes c5perm none "handler boom2" none 50
      ⟨none, none, none⟩ [] c5ctx false 5 40).2.2.2.2 (by decide) (by decide)
      (by decide)⟩

/-- C9 counterexample: with read permission granted, the simplified
`createProvider` read path returns a blank-text, relevance-2 memory untouched
(no filtering, clamping, sorting or topK handling - only `slice(0, 50)`). -/
theorem C9_counterexample :
    providerGetContext c5readPerm none (.ok ⟨[c9blank]⟩) =
      ⟨true, some ⟨[c9blank]⟩, none⟩ ∧
    jsTrim c9blank.text = [] ∧ ¬ c9blank.relevance ≤ 1 := by
  refine ⟨by decide, by decide, by decide⟩

/-- C9 (amended): on the ContextBuilder-based (class provider) read path,
after the permission check passes every memory is validated and normalized -
entries with blank trimmed `text` or `source` are dropped, the kept entries
are trimmed and their relevance clamped to [0,1], the list is sorted by
relevance descending and truncated to the requested topK (builder default
50); the simplified `createProvider` read path instead returns the first 50
memories of the source unvalidated. -/
theorem C9_read_path_validation (mems : List Memory) (optTopK : Option Nat)
    (cfgTopK : Nat) (cd : ContextData) (permStore : PermStore)
    (host : Option String) :
    (baseProviderGetContext true (.ok cd) optTopK cfgTopK =
      ⟨true, some ⟨processMemories cd.memories optTopK cfgTopK⟩, none⟩) ∧
    (∀ m ∈ processMemories mems optTopK cfgTopK,
      m.text ≠ [] ∧ m.source ≠ [] ∧ 0 ≤ m.relevance ∧ m.relevance ≤ 1) ∧
    (processMemories mems optTopK cfgTopK).Pairwise relGe ∧
    (processMemories mems optTopK cfgTopK).length ≤ optTopK.getD cfgTopK ∧
    (isPermissionGranted permStore (jsOrS host "localhost") (some .read) =
        .ok true →
      providerGetContext permStore host (.ok cd) =
        ⟨true, some ⟨cd.memories.take 50⟩, none⟩) := by
  refine ⟨rfl, ?_, ?_, ?_, ?_⟩
  · intro m hm
    unfold processMemories sortByRelevanceDesc at hm
    have hm2 := List.mem_of_mem_take hm
    rw [List.mem_insertionSort] at hm2
    obtain ⟨orig, horig, hnorm⟩ := List.mem_map.mp hm2
    have hcond := (List.mem_filter.mp horig).2
    have htext : jsTrim orig.text ≠ [] := by
      have := (Bool.and_eq_true _ _ |>.mp hcond).1
      simpa using this
    have hsource : jsTrim orig.source ≠ [] := by
      have := (Bool.and_eq_true _ _ |>.mp hcond).2
      simpa using this
    subst hnorm
    refine ⟨htext, hsource, le_max_left _ _, ?_⟩
    exact max_le (by norm_num) (min_le_left _ _)
  · unfold processMemories sortByRelevanceDesc
    exact List.Pairwise.sublist (List.take_sublist _ _)
      (List.sorted_insertionSort relGe _)
  · unfold processMemories
    exact List.length_take_le _ _
  · intro hperm
    unfold providerGetContext
    rw [hperm]

theorem C9_read_path_validation_witness :
    (baseProviderGetContext true (.ok ⟨c9rawMems⟩) none 50 =
      ⟨true, some ⟨processMemories c9rawMems none 50⟩, none⟩) ∧
    (⟨[104], 1, 5, [115]⟩ : Memory) ∈ processMemories c9rawMems none 50 ∧
    ((⟨[104], 1, 5, [115]⟩ : Memory).text ≠ [] ∧
      (⟨[104], 1, 5, [115]⟩ : Memory).source ≠ [] ∧
      0 ≤ (⟨[104], 1, 5, [115]⟩ : Memory).relevance ∧
      (⟨[104], 1, 5, [115]⟩ : Memory).relevance ≤ 1) ∧
    (processMemories c9rawMems none 50).length ≤ 50 ∧
    providerGetContext c5readPerm none (.ok ⟨c9rawMems⟩) =
      ⟨true, some ⟨c9rawMems.take 50⟩, none⟩ :=
  ⟨(C9_read_path_validation c9rawMems none 50 ⟨c9rawMems⟩ c5readPerm none).1,
    by decide,
    (C9_read_path_validation c9rawMems none 50 ⟨c9rawMems⟩ c5readPerm none).2.1
      ⟨[104], 1, 5, [115]⟩ (by decide),
    (C9_read_path_validation c9rawMems none 50 ⟨c9rawMems⟩ c5readPerm
      none).2.2.2.1,
    (C9_read_path_validation c9rawMems none 50 ⟨c9rawMems⟩ c5readPerm
      none).2.2.2.2 (by decide)⟩

/-- C3: aggregation fails with `PERMISSION_DENIED` when no registered
provider reports permission (in particular with zero providers), queries all
qualifying providers and fails with `NO_DATA` - still reporting each queried
provider's raw result - when no result is successful-with-data, and otherwise
succeeds with the merge of the successful contexts alongside every queried
provider's raw result. -/
theorem C3_getAggregatedContext_cases (provs : List Provider)
    (options : Option Nat) :
    (availableProviders provs = [] →
      getAggregatedContext provs options =
        ⟨false, none, some permDeniedAggErr, [], []⟩) ∧
    (successfulResults provs options = [] → availableProviders provs ≠ [] →
      getAggregatedContext provs options =
        ⟨false, none, some noDataErr,
          (availableProviders provs).map (fun p => p.pid),
          (availableProviders provs).map (fun p => (p.pid, p.getCtx options))⟩) ∧
    (successfulResults provs options ≠ [] →
      getAggregatedContext provs options =
        ⟨true,
          some (mergeContexts
            ((successfulResults provs options).filterMap (fun r => r.data))
            options),
          none,
          (availableProviders provs).map (fun p => p.pid),
          (availableProviders provs).map (fun p => (p.pid, p.getCtx options))⟩) := by
  refine ⟨?_, ?_, ?_⟩
  · intro h
    unfold getAggregatedContext
    rw [if_pos (List.isEmpty_iff.mpr h)]
  · intro hs ha
    unfold getAggregatedContext
    rw [if_neg (fun hc => ha (List.isEmpty_iff.mp hc)),
      if_pos (List.isEmpty_iff.mpr hs)]
  · intro hs
    have ha : availableProviders provs ≠ [] := by
      intro hc
      apply hs
      unfold successfulResults aggResults
      rw [hc]
      rfl
    unfold getAggregatedContext
    rw [if_neg (fun hc => ha (List.isEmpty_iff.mp hc)),
      if_neg (fun hc => hs (List.isEmpty_iff.mp hc))]

theorem C3_getAggregatedContext_cases_witness :
    getAggregatedContext [pNoPerm] none =
      ⟨false, none, some permDeniedAggErr, [], []⟩ ∧
    getAggregatedContext [pFail, pNoPerm] none =
      ⟨false, none, some noDataErr, ["p-fail"],
        [("p-fail", ⟨false, none, some "backend down"⟩)]⟩ ∧
    getAggregatedContext [pFail, pGood] none =
      ⟨true, some ⟨[demoMem]⟩, none, ["p-fail", "p-good"],
        [("p-fail", ⟨false, none, some "backend down"⟩),
          ("p-good", ⟨true, some ⟨[demoMem]⟩, none⟩)]⟩ :=
  ⟨(C3_getAggregatedContext_cases [pNoPerm] none).1 rfl,
    (C3_getAggregatedContext_cases [pFail, pNoPerm] none).2.1 rfl
      (fun h => by cases h),
    (C3_getAggregatedContext_cases [pFail, pGood] none).2.2
      (fun h => by cases h)⟩

/-- C4: with no (or a falsy) providerId the registry routes `getContext` to
the first-registered provider regardless of its permission state; with a
nonempty providerId it routes only to that provider; with no registered
provider - or an unknown id - it fails with `NOT_AVAILABLE`. -/
theorem C4_registry_getContext_routing (provs : List Provider)
    (options : Option Nat) (id : String) (p : Provider)
    (rest : List Provider) :
    (∀ pid2, registryGetContext [] options pid2 = notAvailableResult) ∧
    (registryGetContext (p :: rest) options none =
      convertToContextResult (p.getCtx options)) ∧
    (id ≠ "" → provs.find? (fun q => (some q.pid) == some id) = some p →
      registryGetContext provs options (some id) =
        convertToContextResult (p.getCtx options)) ∧
    (id ≠ "" → provs.find? (fun q => (some q.pid) == some id) = none →
      registryGetContext provs options (some id) = notAvailableResult) := by
  refine ⟨?_, rfl, ?_, ?_⟩
  · intro pid2
    unfold registryGetContext selectProvider
    by_cases h : jsTruthyS pid2 = true
    · rw [if_pos h]
      rfl
    · rw [if_neg h]
      rfl
  · intro hid hfind
    have htr : jsTruthyS (some id) = true := by
      simp only [jsTruthyS, bne_iff_ne, ne_eq, decide_not]
      simpa using hid
    unfold registryGetContext selectProvider
    rw [if_pos htr, hfind]
  · intro hid hfind
    have htr : jsTruthyS (some id) = true := by
      simp only [jsTruthyS, bne_iff_ne, ne_eq, decide_not]
      simpa using hid
    unfold registryGetContext selectProvider
    rw [if_pos htr, hfind]

theorem C4_registry_getContext_routing_witness :
    registryGetContext [] none none = notAvailableResult ∧
    registryGetContext [pNoPerm, pGood] none none =
      convertToContextResult (pNoPerm.getCtx none) ∧
    registryGetContext [pNoPerm, pGood] none (some "p-good") =
      convertToContextResult (pGood.getCtx none) ∧
    registryGetContext [pNoPerm, pGood] none (some "p-missing") =
      notAvailableResult :=
  ⟨(C4_registry_getContext_routing [] none "x" pGood []).1 none,
    (C4_registry_getContext_routing [pNoPerm, pGood] none "x" pNoPerm
      [pGood]).2.1,
    (C4_registry_getContext_routing [pNoPerm, pGood] none "p-good" pGood
      []).2.2.1 (by decide) rfl,
    (C4_registry_getContext_routing [pNoPerm, pGood] none "p-missing" pGood
      []).2.2.2 (by decide) rfl⟩

/-- C10: without a providerId, the registry permission check is true iff at
least one registered provider grants for the domain (hence false with zero
providers); with a nonempty providerId it is exactly that provider's verdict,
and false when no provider with that id is registered. -/
theorem C10_registry_isPermissionGranted (provs : List Provider) (id : String)
    (domain : Option String) (p : Provider) :
    (registryIsPermissionGranted provs none domain = true ↔
      ∃ q ∈ provs, q.permGranted domain = true) ∧
    (registryIsPermissionGranted [] none domain = false) ∧
    (id ≠ "" → provs.find? (fun q => (some q.pid) == some id) = some p →
      registryIsPermissionGranted provs (some id) domain =
        p.permGranted domain) ∧
    (id ≠ "" → provs.find? (fun q => (some q.pid) == some id) = none →
      registryIsPermissionGranted provs (some id) domain = false) := by
  refine ⟨?_, rfl, ?_, ?_⟩
  · unfold registryIsPermissionGranted
    rw [if_neg (by simp [jsTruthyS])]
    exact List.any_eq_true
  · intro hid hfind
    have htr : jsTruthyS (some id) = true := by
      simp only [jsTruthyS, bne_iff_ne, ne_eq, decide_not]
      simpa using hid
    unfold registryIsPermissionGranted
    rw [if_pos htr, hfind]
  · intro hid hfind
    have htr : jsTruthyS (some id) = true := by
      simp only [jsTruthyS, bne_iff_ne, ne_eq, decide_not]
      simpa using hid
    unfold registryIsPermissionGranted
    rw [if_pos htr, hfind]

theorem C10_registry_isPermissionGranted_witness :
    registryIsPermissionGranted [pNoPerm, pGood] none none = true ∧
    registryIsPermissionGranted [] none none = false ∧
    registryIsPermissionGranted [pNoPerm, pGood] (some "p-noperm") none =
      false ∧
    registryIsPermissionGranted [pNoPerm, pGood] (some "p-missing") none =
      false :=
  ⟨(C10_registry_isPermissionGranted [pNoPerm, pGood] "x" none pGood).1.mpr
      ⟨pGood, List.mem_cons_of_mem _ (List.mem_cons_self _ _), rfl⟩,
    (C10_registry_isPermissionGranted [] "x" none pGood).2.1,
    (C10_registry_isPermissionGranted [pNoPerm, pGood] "p-noperm" none
      pNoPerm).2.2.1 (by decide) rfl,
    (C10_registry_isPermissionGranted [pNoPerm, pGood] "p-missing" none
      pGood).2.2.2 (by decide) rfl⟩

